import Mathlib

/-!
Shallow embedding of src/app.py (ibgc_exel), an asynchronous Excel-generation
service.  Python strings are Lean Strings; the character-level helpers below
mirror Python str.split and str.strip so that every definition evaluates by
kernel reduction.  Timestamps (created_at, updated_at), the TTL cleanup sweep,
uuid generation, filename sanitization (safe_filename), col_to_index and the
openpyxl cell writes themselves are not modelled: no claim refers to them.
Python float arithmetic in the progress formula int((done/total)*98)+1 is
modelled exactly: fl_pos below performs IEEE 754 binary64 rounding (round to
nearest, ties to even) of a positive rational, the quotient done/total and
the product with 98 are each correctly rounded as CPython computes them, and
int() truncates the non-negative result.  Exponent overflow and subnormals
are not modelled; every value the worker forms lies in (0, 98], far inside
the normal range, where this model is the exact CPython semantics.
-/

namespace IbgcApp

/-- Job lifecycle states, matching the status strings stored in the JOBS map
("queued", "processing", "done", "failed"). -/
inductive JobStatus
  | queued
  | processing
  | done
  | failed
deriving DecidableEq

/-- One job record of the in-memory JOBS registry.  Fields the claims refer
to; job_id is the registry key, created_at and updated_at and the two stored
filename fields are not modelled (no claim mentions them). -/
structure Job where
  status : JobStatus
  progress_percent : Nat
  error : String
  file_url : String
  output_filename : String
deriving DecidableEq

/-- One keyword-argument set passed to update_job.  The source only ever
passes these four keys; a field left none is not touched. -/
structure JobUpdate where
  status : Option JobStatus
  progress_percent : Option Nat
  error : Option String
  file_url : Option String
deriving DecidableEq

/-- Partial-field merge performed by Python dict.update inside update_job. -/
def applyUpdate (j : Job) (u : JobUpdate) : Job :=
  Job.mk (u.status.getD j.status) (u.progress_percent.getD j.progress_percent)
    (u.error.getD j.error) (u.file_url.getD j.file_url) j.output_filename

/-- The JOBS registry: job_id keyed map, modelled as an association list. -/
abbrev Registry := List (String × Job)

/-- get_job: snapshot read; returns none when the id is absent. -/
def get_job (reg : Registry) (job_id : String) : Option Job :=
  reg.lookup job_id

/-- update_job: merge kwargs into the record when present; a lookup miss
returns the registry unchanged (the early return in the source).  Being a
total Lean function it can never raise, mirroring that the Python body has no
raising operation on the miss path. -/
def update_job (reg : Registry) (job_id : String) (u : JobUpdate) : Registry :=
  match reg.lookup job_id with
  | none => reg
  | some _ => reg.map (fun p => if p.1 = job_id then (p.1, applyUpdate p.2 u) else p)

/-- Characters stripped by Python str.strip() for the inputs in scope
(ASCII whitespace). -/
def is_py_space (c : Char) : Bool :=
  c == ' ' || c == '\t' || c == '\n' || c == '\r'

/-- Python str.strip(). -/
def py_strip (s : String) : String :=
  String.mk (((s.data.dropWhile is_py_space).reverse.dropWhile is_py_space).reverse)

/-- Python str.split(sep) for a one-character separator: splitting the empty
string yields one empty piece, and each occurrence of the separator starts a
new piece. -/
def split_chars (sep : Char) : List Char → List (List Char)
  | [] => [[]]
  | c :: cs =>
    if c = sep then [] :: split_chars sep cs
    else
      match split_chars sep cs with
      | [] => [[c]]
      | p :: ps => (c :: p) :: ps

/-- String wrapper around split_chars. -/
def split_on (sep : Char) (s : String) : List String :=
  (split_chars sep s.data).map String.mk

/-- parse_rows_text: empty text gives no rows; otherwise the text is split
into lines, fully-blank lines are dropped, and each remaining line is split
at every pipe character.  Python splitlines is modelled by splitting at the
newline character: the only difference (no trailing empty piece, other
Unicode line breaks) is erased by the blank-line filter for the inputs in
scope.  The rstrip of the source is a no-op after splitting on newlines. -/
def parse_rows_text (rows_text : String) : List (List String) :=
  if rows_text = "" then []
  else
    ((split_on '\n' rows_text).filter (fun ln => py_strip ln != "")).map
      (fun ln => split_on '|' ln)

/-- Round-to-nearest, ties-to-even integer rounding of the fraction num/den
(den positive), as IEEE 754 prescribes: the floor, the ceiling when the
remainder exceeds half, and the even neighbour on an exact half. -/
def rnd_half_even (num den : Nat) : Nat :=
  let m0 := num / den
  let r := num % den
  if 2 * r < den then m0
  else if den < 2 * r then m0 + 1
  else if m0 % 2 = 0 then m0 else m0 + 1

/-- Least scaling exponent: the smallest s with n * 2^s reaching the target,
found by doubling n.  The fuel argument only bounds the search; every call
below passes the target itself as fuel, which a positive n always reaches
first (n * 2^s grows past any target within target steps), so the fuel-zero
fallback is never the answer. -/
def osigma (target : Nat) : Nat → Nat → Nat
  | _, 0 => 0
  | n, fuel + 1 => if target ≤ n then 0 else osigma target (2 * n) fuel + 1

/-- IEEE 754 binary64 (CPython float) value of the positive rational n/d,
rounded to nearest with ties to even, returned as the exact dyadic pair
(m, s) standing for m / 2^s.  s is the least exponent with n * 2^s reaching
d * 2^52, so (n/d) * 2^s lies in the binade from 2^52 up to 2^53 whenever
n/d is below 2^52, and m is the 53-bit significand obtained by even
rounding of (n * 2^s) / d. -/
def fl_pos (n d : Nat) : Nat × Nat :=
  let s := osigma (d * 2 ^ 52) n (d * 2 ^ 52)
  (rnd_half_even (n * 2 ^ s) d, s)

/-- Progress formula of the worker loop, int((done_rows/total_rows)*98)+1
capped at 99, in CPython float semantics: the true division of the two ints
is the correctly rounded binary64 quotient, the product with 98 is again
correctly rounded, and int() truncates (the value is non-negative, so
truncation is the floor of the dyadic result).  At done=3, total=4 both
roundings are exact and the result is int(73.5)+1 = 74; at done=1, total=49
the rounded product is just below 2 and the result is int(1.9999...)+1 = 2,
where exact rational arithmetic would give 3 - matching CPython. -/
def progress_calc (done_rows total_rows : Nat) : Nat :=
  let x := fl_pos done_rows total_rows
  let y := fl_pos (x.1 * 98) (2 ^ x.2)
  let p := y.1 / 2 ^ y.2 + 1
  if 99 < p then 99 else p

/-- One requested sheet: name, start coordinates and raw row text.  The
start coordinates are carried but never constrained by a claim, so the
col_to_index conversion and the cell coordinates are not modelled. -/
structure SheetSpec where
  name : String
  start_row : Int
  start_col : Int
  rows_text : String
deriving DecidableEq

/-- The parse pass of the worker: trimmed sheet name paired with parsed rows. -/
def parsed_sheets (ss : List SheetSpec) : List (String × List (List String)) :=
  ss.map (fun s => (py_strip s.name, parse_rows_text s.rows_text))

/-- total_rows accumulation of the worker (one unit per parsed row). -/
def rows_total : List (String × List (List String)) → Nat
  | [] => 0
  | p :: ps => p.2.length + rows_total ps

/-- Total work units of a submission, as the worker computes them. -/
def total_rows (ss : List SheetSpec) : Nat :=
  rows_total (parsed_sheets ss)

/-- The first update of the worker: status processing, progress 1, error
cleared. -/
def proc_upd : JobUpdate :=
  JobUpdate.mk (some JobStatus.processing) (some 1) (some "") none

/-- An in-loop progress-only update. -/
def prog_upd (p : Nat) : JobUpdate :=
  JobUpdate.mk none (some p) none none

/-- The terminal success update: status done, progress 100, file_url set.
This is the single update that exposes the artifact reference. -/
def done_upd (url : String) : JobUpdate :=
  JobUpdate.mk (some JobStatus.done) (some 100) none (some url)

/-- The except-branch update: status failed, progress reset to 0, error set
to the message of the caught fault. -/
def fail_upd (msg : String) : JobUpdate :=
  JobUpdate.mk (some JobStatus.failed) (some 0) (some msg) none

/-- Inner row loop of the worker over one sheet: after each written row the
done counter (returned as the first component, the value of done_rows when
the update is issued) is incremented and a progress update is emitted. -/
def row_steps (total : Nat) : Nat → Nat → List (Nat × JobUpdate)
  | _, 0 => []
  | d, k + 1 => (d + 1, prog_upd (progress_calc (d + 1) total)) :: row_steps total (d + 1) k

/-- Outer sheet loop of the worker: a sheet name absent from the workbook is
created (appended to the sheet-name list, as openpyxl create_sheet does) and
the rows are then written.  Returns the final sheet-name list and the row
steps of all sheets in submission order. -/
def sheets_go (total : Nat) :
    Nat → List String → List (String × List (List String)) → List String × List (Nat × JobUpdate)
  | _, names, [] => (names, [])
  | d, names, q :: rest =>
    let names2 := if q.1 ∈ names then names else names ++ [q.1]
    let r := sheets_go total (d + q.2.length) names2 rest
    (r.1, row_steps total d q.2.length ++ r.2)

/-- Observable outcome of one worker run: the ordered registry updates it
issues, the done_rows value at each in-loop update, whether wb.save was
executed, and the final sheet-name list of the workbook. -/
structure WorkerResult where
  upds : List JobUpdate
  dones : List Nat
  saved : Bool
  sheetnames : List String
deriving DecidableEq

/-- generate_excel_job: the background worker.  Marked processing first; a
missing template raises and the except branch marks the job failed; zero
total rows saves the unmodified template and marks the job done; otherwise
every row write bumps progress and the run ends with the save and the single
done update carrying the file url. -/
def generate_excel_job (template_path : String) (template_exists : Bool)
    (template_sheets : List String) (base_url stored_filename : String)
    (sheets : List SheetSpec) : WorkerResult :=
  if template_exists then
    let parsed := parsed_sheets sheets
    let total := rows_total parsed
    if total = 0 then
      WorkerResult.mk [proc_upd, done_upd (base_url ++ "generated/" ++ stored_filename)]
        [] true template_sheets
    else
      let r := sheets_go total 0 template_sheets parsed
      WorkerResult.mk
        (proc_upd :: (r.2.map Prod.snd ++ [done_upd (base_url ++ "generated/" ++ stored_filename)]))
        (r.2.map Prod.fst) true r.1
  else
    WorkerResult.mk [proc_upd, fail_upd ("Template not found: " ++ template_path)]
      [] false template_sheets

/-- Registry record created by excel_start: queued, zero progress, empty
error and file_url. -/
def initial_job (output_filename : String) : Job :=
  Job.mk JobStatus.queued 0 "" "" output_filename

/-- All registry snapshots a status poller can observe while a given update
list is applied in order, the pre-state included. -/
def job_states_from (j : Job) : List JobUpdate → List Job
  | [] => [j]
  | u :: us => j :: job_states_from (applyUpdate j u) us

/-- Snapshot trace of one worker run against a freshly created job. -/
def job_states (output_filename : String) (w : WorkerResult) : List Job :=
  job_states_from (initial_job output_filename) w.upds

/-- Registry record left behind after the worker run. -/
def final_job (output_filename : String) (w : WorkerResult) : Job :=
  w.upds.foldl applyUpdate (initial_job output_filename)

/-- Shape of the sheets entry of the start payload: absent, present but not
a JSON list, or a list of sheet specs.  payload.get with a default maps the
absent case to the empty list before the isinstance check. -/
inductive SheetsField
  | missing
  | notList
  | list (ss : List SheetSpec)
deriving DecidableEq

/-- Synchronous outcome of excel_start: an HTTP client error, or a created
registry record (with a fresh id, not modelled) plus the sheet list handed
to the spawned worker. -/
inductive StartResult
  | clientError (msg : String) (http_code : Nat)
  | started (job : Job) (sheets : List SheetSpec)
deriving DecidableEq

/-- excel_start: sheets defaults to the empty list when absent; only a
present non-list value is rejected with a 400; every list, the empty one
included, creates a queued job and spawns the worker. -/
def excel_start (output_filename : String) : SheetsField → StartResult
  | SheetsField.notList => StartResult.clientError "sheets must be a list" 400
  | SheetsField.missing => StartResult.started (initial_job output_filename) []
  | SheetsField.list ss => StartResult.started (initial_job output_filename) ss

/-- JSON body plus HTTP code of excel_status.  String keys absent from the
Python body (the 404 body has only error, status and progress_percent) are
modelled as the empty string. -/
structure StatusResp where
  http_code : Nat
  job_id : String
  status : String
  progress_percent : Nat
  file_url : String
  error : String
  output_filename : String
deriving DecidableEq

/-- Status strings stored in the registry and returned by the endpoint. -/
def status_string : JobStatus → String
  | JobStatus.queued => "queued"
  | JobStatus.processing => "processing"
  | JobStatus.done => "done"
  | JobStatus.failed => "failed"

/-- excel_status: an unknown id gets HTTP 404 with body status "failed" and
error "job not found"; a known id gets a projection in which file_url is
masked unless the status is done and error is masked unless it is failed. -/
def excel_status (reg : Registry) (job_id : String) : StatusResp :=
  match get_job reg job_id with
  | none => StatusResp.mk 404 "" "failed" 0 "" "job not found" ""
  | some j =>
    StatusResp.mk 200 job_id (status_string j.status) j.progress_percent
      (if j.status = JobStatus.done then j.file_url else "")
      (if j.status = JobStatus.failed then j.error else "")
      j.output_filename

/-- Modelled from the spec: the progress formula the claim states,
floor(100 * doneUnits / totalUnits) clamped to the interval from 0 to 99
(the lower clamp is vacuous on naturals).  Used only to compare the claimed
formula with progress_calc, the formula of the source. -/
def spec_progress (done_units total_units : Nat) : Nat :=
  min 99 (100 * done_units / total_units)

/-- Consecutive counter values d+1, d+2, ..., d+k; the shape of the done
sequence of a worker run. -/
def count_up : Nat → Nat → List Nat
  | _, 0 => []
  | d, k + 1 => (d + 1) :: count_up (d + 1) k

/-- The progress formula of the source never exceeds 99: the cap handles one
side and the uncapped value is returned only when it is at most 99. -/
theorem progress_calc_le (d t : Nat) : progress_calc d t ≤ 99 := by
  simp only [progress_calc]
  split <;> omega

/-- Every element of the inner row loop carries a done counter strictly above
the entry value and at most entry plus row count, and a pure progress update
computed from that counter. -/
theorem row_steps_mem (total : Nat) : ∀ (k d : Nat) (p : Nat × JobUpdate),
    p ∈ row_steps total d k →
    d < p.1 ∧ p.1 ≤ d + k ∧ p.2 = prog_upd (progress_calc p.1 total) := by
  intro k
  induction k with
  | zero => intro d p h; simp [row_steps] at h
  | succ k ih =>
    intro d p h
    simp only [row_steps] at h
    rcases List.mem_cons.mp h with h1 | h1
    · subst h1
      refine ⟨?_, ?_, rfl⟩
      · show d < d + 1
        omega
      · show d + 1 ≤ d + (k + 1)
        omega
    · obtain ⟨a, b, c⟩ := ih (d + 1) p h1
      exact ⟨by omega, by omega, c⟩

/-- Every element of the whole sheet loop carries a done counter in the open
interval above the entry value bounded by the total row count, and a pure
progress update computed from it. -/
theorem sheets_go_mem (total : Nat) : ∀ (ps : List (String × List (List String)))
    (d : Nat) (ns : List String) (p : Nat × JobUpdate),
    p ∈ (sheets_go total d ns ps).2 →
    d < p.1 ∧ p.1 ≤ d + rows_total ps ∧ p.2 = prog_upd (progress_calc p.1 total) := by
  intro ps
  induction ps with
  | nil => intro d ns p h; simp [sheets_go] at h
  | cons q ps ih =>
    intro d ns p h
    dsimp only [sheets_go] at h
    rcases List.mem_append.mp h with h1 | h1
    · obtain ⟨a, b, c⟩ := row_steps_mem total q.2.length d p h1
      refine ⟨a, ?_, c⟩
      simp only [rows_total]
      omega
    · obtain ⟨a, b, c⟩ := ih (d + q.2.length) _ p h1
      refine ⟨by omega, ?_, c⟩
      simp only [rows_total]
      omega

/-- The sheet loop only ever appends to the workbook sheet-name list. -/
theorem sheets_go_names_sub (total : Nat) : ∀ (ps : List (String × List (List String)))
    (d : Nat) (ns : List String) (nm : String),
    nm ∈ ns → nm ∈ (sheets_go total d ns ps).1 := by
  intro ps
  induction ps with
  | nil => intro d ns nm h; simpa [sheets_go] using h
  | cons q ps ih =>
    intro d ns nm h
    dsimp only [sheets_go]
    apply ih
    by_cases hq : q.1 ∈ ns
    · rw [if_pos hq]; exact h
    · rw [if_neg hq]; exact List.mem_append_left _ h

/-- Every requested sheet name is present in the final workbook sheet-name
list: either it already existed or create_sheet appended it. -/
theorem sheets_go_names_req (total : Nat) : ∀ (ps : List (String × List (List String)))
    (d : Nat) (ns : List String) (q0 : String × List (List String)),
    q0 ∈ ps → q0.1 ∈ (sheets_go total d ns ps).1 := by
  intro ps
  induction ps with
  | nil => intro d ns q0 h; simp at h
  | cons q ps ih =>
    intro d ns q0 h
    dsimp only [sheets_go]
    rcases List.mem_cons.mp h with h1 | h1
    · subst h1
      apply sheets_go_names_sub
      by_cases hq : q0.1 ∈ ns
      · rw [if_pos hq]; exact hq
      · rw [if_neg hq]
        exact List.mem_append_right _ (List.mem_singleton.mpr rfl)
    · exact ih _ _ q0 h1

/-- Done counters of the inner row loop are the consecutive values following
the entry value. -/
theorem row_steps_fst (total : Nat) : ∀ (k d : Nat),
    (row_steps total d k).map Prod.fst = count_up d k := by
  intro k
  induction k with
  | zero => intro d; rfl
  | succ k ih => intro d; simp [row_steps, count_up, ih]

/-- Splitting a consecutive-counter block. -/
theorem count_up_append : ∀ (a d b : Nat),
    count_up d (a + b) = count_up d a ++ count_up (d + a) b := by
  intro a
  induction a with
  | zero => intro d b; simp [count_up]
  | succ a ih =>
    intro d b
    have h1 : a + 1 + b = (a + b) + 1 := by omega
    rw [h1]
    simp only [count_up, List.cons_append]
    rw [ih (d + 1) b]
    have h2 : d + 1 + a = d + (a + 1) := by omega
    rw [h2]

/-- Done counters of the whole sheet loop are the consecutive values from one
past the entry value up to the entry value plus the total row count. -/
theorem sheets_go_fst (total : Nat) : ∀ (ps : List (String × List (List String)))
    (d : Nat) (ns : List String),
    (sheets_go total d ns ps).2.map Prod.fst = count_up d (rows_total ps) := by
  intro ps
  induction ps with
  | nil => intro d ns; rfl
  | cons q ps ih =>
    intro d ns
    dsimp only [sheets_go, rows_total]
    rw [List.map_append, row_steps_fst, ih (d + q.2.length), count_up_append]

/-- Bounds for membership in a consecutive-counter block. -/
theorem count_up_mem : ∀ (k d v : Nat), v ∈ count_up d k → d < v ∧ v ≤ d + k := by
  intro k
  induction k with
  | zero => intro d v h; simp [count_up] at h
  | succ k ih =>
    intro d v h
    simp only [count_up, List.mem_cons] at h
    rcases h with rfl | h
    · omega
    · have := ih (d + 1) v h
      omega

/-- A consecutive-counter block is non-decreasing. -/
theorem count_up_pairwise : ∀ (k d : Nat),
    List.Pairwise (fun a b => a ≤ b) (count_up d k) := by
  intro k
  induction k with
  | zero => intro d; simp [count_up]
  | succ k ih =>
    intro d
    simp only [count_up]
    refine List.Pairwise.cons ?_ (ih (d + 1))
    intro v hv
    have := count_up_mem k (d + 1) v hv
    omega

/-- The last element of a nonempty consecutive-counter block is the entry
value plus the length. -/
theorem count_up_last : ∀ (k d : Nat), 0 < k → (count_up d k).getLast? = some (d + k) := by
  intro k
  induction k with
  | zero => intro d h; omega
  | succ k ih =>
    intro d h
    cases k with
    | zero => simp [count_up]
    | succ k2 =>
      have h2 : count_up d (k2 + 1 + 1) = (d + 1) :: (d + 2) :: count_up (d + 2) k2 := rfl
      rw [h2, List.getLast?_cons_cons]
      have h3 : (d + 2) :: count_up (d + 2) k2 = count_up (d + 1) (k2 + 1) := rfl
      rw [h3, ih (d + 1) (Nat.succ_pos k2)]
      simp only [Option.some.injEq]
      omega

/-- Folding progress-only updates over a job record never changes its status,
error, file_url or output_filename. -/
theorem foldl_keep : ∀ (ps : List JobUpdate) (j : Job),
    (∀ u ∈ ps, u.status = none ∧ u.error = none ∧ u.file_url = none) →
    (ps.foldl applyUpdate j).status = j.status ∧
    (ps.foldl applyUpdate j).error = j.error ∧
    (ps.foldl applyUpdate j).file_url = j.file_url ∧
    (ps.foldl applyUpdate j).output_filename = j.output_filename := by
  intro ps
  induction ps with
  | nil => intro j h; simp
  | cons u ps ih =>
    intro j h
    obtain ⟨h1, h2, h3⟩ := h u (List.mem_cons_self u ps)
    have hrest := ih (applyUpdate j u) (fun v hv => h v (List.mem_cons_of_mem u hv))
    simp only [List.foldl_cons]
    refine ⟨?_, ?_, ?_, ?_⟩
    · rw [hrest.1]; simp [applyUpdate, h1]
    · rw [hrest.2.1]; simp [applyUpdate, h2]
    · rw [hrest.2.2.1]; simp [applyUpdate, h3]
    · rw [hrest.2.2.2]; simp [applyUpdate]

/-- Snapshot characterization of the loop-plus-done suffix of a run: starting
from a processing record with clean error and file_url, every observable
snapshot is the start record, a processing record with a loop progress value,
or the terminal done record carrying the url. -/
theorem states_from_prog (total : Nat) (f url : String) :
    ∀ (ps : List JobUpdate) (j : Job),
      j.status = JobStatus.processing → j.error = "" → j.file_url = "" →
      j.output_filename = f →
      (∀ u ∈ ps, ∃ d, 1 ≤ d ∧ d ≤ total ∧ u = prog_upd (progress_calc d total)) →
      ∀ x ∈ job_states_from j (ps ++ [done_upd url]),
        x = j ∨
        (∃ d, 1 ≤ d ∧ d ≤ total ∧
          x = Job.mk JobStatus.processing (progress_calc d total) "" "" f) ∨
        x = Job.mk JobStatus.done 100 "" url f := by
  intro ps
  induction ps with
  | nil =>
    intro j h1 h2 h3 h4 hu x hx
    simp only [List.nil_append, job_states_from, List.mem_cons, List.mem_singleton] at hx
    rcases hx with rfl | hx
    · left; rfl
    · simp only [List.not_mem_nil, or_false] at hx
      subst hx
      right; right
      simp [applyUpdate, done_upd, h2, h4]
  | cons u ps ih =>
    intro j h1 h2 h3 h4 hu x hx
    simp only [List.cons_append, job_states_from, List.mem_cons] at hx
    rcases hx with rfl | hx
    · left; rfl
    · obtain ⟨d, hd1, hd2, rfl⟩ := hu u (List.mem_cons_self u ps)
      have happ : applyUpdate j (prog_upd (progress_calc d total)) =
          Job.mk JobStatus.processing (progress_calc d total) "" "" f := by
        simp [applyUpdate, prog_upd, h1, h2, h3, h4]
      rw [happ] at hx
      have hrest := ih (Job.mk JobStatus.processing (progress_calc d total) "" "" f)
        rfl rfl rfl rfl
        (fun v hv => hu v (List.mem_cons_of_mem _ hv)) x hx
      rcases hrest with h | h | h
      · right; left; exact ⟨d, hd1, hd2, h⟩
      · right; left; exact h
      · right; right; exact h

/-- Snapshot characterization of a full worker run against a fresh job: every
observable registry snapshot is the queued creation record, the initial
processing record, the failed record of a missing template, a mid-loop
processing record, or the terminal done record. -/
theorem run_states_char (f tp : String) (te : Bool) (ts : List String) (bu sf : String)
    (ss : List SheetSpec) :
    ∀ x ∈ job_states f (generate_excel_job tp te ts bu sf ss),
      x = initial_job f ∨
      x = Job.mk JobStatus.processing 1 "" "" f ∨
      (te = false ∧ x = Job.mk JobStatus.failed 0 ("Template not found: " ++ tp) "" f) ∨
      (∃ d, 1 ≤ d ∧ d ≤ total_rows ss ∧
        x = Job.mk JobStatus.processing (progress_calc d (total_rows ss)) "" "" f) ∨
      x = Job.mk JobStatus.done 100 "" (bu ++ "generated/" ++ sf) f := by
  intro x hx
  cases te with
  | false =>
    simp only [job_states, generate_excel_job, Bool.false_eq_true, if_false,
      job_states_from, List.mem_cons, List.mem_singleton, List.not_mem_nil, or_false] at hx
    rcases hx with rfl | rfl | rfl
    · left; rfl
    · right; left
      simp [applyUpdate, proc_upd, initial_job]
    · right; right; left
      refine ⟨rfl, ?_⟩
      simp [applyUpdate, proc_upd, fail_upd, initial_job]
  | true =>
    by_cases h0 : rows_total (parsed_sheets ss) = 0
    · simp only [job_states, generate_excel_job, if_true, h0, if_pos,
        job_states_from, List.mem_cons, List.mem_singleton, List.not_mem_nil, or_false] at hx
      rcases hx with rfl | rfl | rfl
      · left; rfl
      · right; left
        simp [applyUpdate, proc_upd, initial_job]
      · right; right; right; right
        simp [applyUpdate, proc_upd, done_upd, initial_job]
    · simp only [job_states, generate_excel_job, if_true, h0, if_false,
        job_states_from, List.mem_cons] at hx
      rcases hx with rfl | hx
      · left; rfl
      · have hproc : applyUpdate (initial_job f) proc_upd =
            Job.mk JobStatus.processing 1 "" "" f := by
          simp [applyUpdate, proc_upd, initial_job]
        rw [hproc] at hx
        have hp : ∀ u ∈ (sheets_go (rows_total (parsed_sheets ss)) 0 ts
            (parsed_sheets ss)).2.map Prod.snd,
            ∃ d, 1 ≤ d ∧ d ≤ rows_total (parsed_sheets ss) ∧
              u = prog_upd (progress_calc d (rows_total (parsed_sheets ss))) := by
          intro u hu
          obtain ⟨p, hpmem, rfl⟩ := List.mem_map.mp hu
          obtain ⟨a, b, c⟩ := sheets_go_mem (rows_total (parsed_sheets ss))
            (parsed_sheets ss) 0 ts p hpmem
          exact ⟨p.1, by omega, by omega, c⟩
        have hchar := states_from_prog (rows_total (parsed_sheets ss)) f
          (bu ++ "generated/" ++ sf) _
          (Job.mk JobStatus.processing 1 "" "" f) rfl rfl rfl rfl hp x hx
        rcases hchar with h | h | h
        · right; left; exact h
        · right; right; right; left; exact h
        · right; right; right; right; exact h

/-- Update characterization of a worker run: every registry update it issues
is the initial processing update, a mid-loop progress update, the terminal
done update, or (with a missing template) the failed update. -/
theorem upds_char (tp : String) (te : Bool) (ts : List String) (bu sf : String)
    (ss : List SheetSpec) :
    ∀ u ∈ (generate_excel_job tp te ts bu sf ss).upds,
      u = proc_upd ∨
      (∃ d, 1 ≤ d ∧ d ≤ total_rows ss ∧
        u = prog_upd (progress_calc d (total_rows ss))) ∨
      u = done_upd (bu ++ "generated/" ++ sf) ∨
      (te = false ∧ u = fail_upd ("Template not found: " ++ tp)) := by
  intro u hu
  cases te with
  | false =>
    simp only [generate_excel_job, Bool.false_eq_true, if_false, List.mem_cons,
      List.mem_singleton, List.not_mem_nil, or_false] at hu
    rcases hu with rfl | rfl
    · left; rfl
    · right; right; right; exact ⟨rfl, rfl⟩
  | true =>
    by_cases h0 : rows_total (parsed_sheets ss) = 0
    · simp only [generate_excel_job, if_true, h0, if_pos, List.mem_cons,
        List.mem_singleton, List.not_mem_nil, or_false] at hu
      rcases hu with rfl | rfl
      · left; rfl
      · right; right; left; rfl
    · simp only [generate_excel_job, if_true, h0, if_false, List.mem_cons,
        List.mem_append, List.mem_singleton, List.not_mem_nil, or_false] at hu
      rcases hu with rfl | hu | rfl
      · left; rfl
      · obtain ⟨p, hpmem, rfl⟩ := List.mem_map.mp hu
        obtain ⟨a, b, c⟩ := sheets_go_mem (rows_total (parsed_sheets ss))
          (parsed_sheets ss) 0 ts p hpmem
        right; left
        refine ⟨p.1, by omega, ?_, c⟩
        simp only [total_rows]
        omega
      · right; right; left; rfl

/-- With the template present a worker run always ends with the terminal done
record: progress 100, clean error, the artifact url exposed. -/
theorem final_true (f tp : String) (ts : List String) (bu sf : String)
    (ss : List SheetSpec) :
    final_job f (generate_excel_job tp true ts bu sf ss) =
      Job.mk JobStatus.done 100 "" (bu ++ "generated/" ++ sf) f := by
  by_cases h0 : rows_total (parsed_sheets ss) = 0
  · simp [final_job, generate_excel_job, h0, applyUpdate, proc_upd, done_upd, initial_job]
  · have hL : ∀ u ∈ (sheets_go (rows_total (parsed_sheets ss)) 0 ts
        (parsed_sheets ss)).2.map Prod.snd,
        u.status = none ∧ u.error = none ∧ u.file_url = none := by
      intro u hu
      obtain ⟨p, hpmem, rfl⟩ := List.mem_map.mp hu
      have hc := (sheets_go_mem (rows_total (parsed_sheets ss))
        (parsed_sheets ss) 0 ts p hpmem).2.2
      rw [hc]
      simp [prog_upd]
    have hj1 : applyUpdate (initial_job f) proc_upd =
        Job.mk JobStatus.processing 1 "" "" f := by
      simp [applyUpdate, proc_upd, initial_job]
    have hk := foldl_keep _ (Job.mk JobStatus.processing 1 "" "" f) hL
    simp only [final_job, generate_excel_job, if_true, h0, if_false,
      List.foldl_cons, List.foldl_append, List.foldl_nil]
    rw [hj1]
    simp only [applyUpdate, done_upd, Option.getD_some, Option.getD_none]
    rw [hk.2.1, hk.2.2.2]

/-- Claim C1, counterexample.  The claim says a submission whose sheets all
parse to zero rows is surfaced as Failed with a no-work error before any
save, and never reaches Done.  In the source the zero-total branch instead
saves the unmodified template and marks the job done with progress 100: on
the concrete run below (one sheet whose rows_text is only blank lines) the
final registry record is done with the artifact url and the save did run. -/
theorem c1_counterexample :
    final_job "out" (generate_excel_job "T.xlsx" true ["S1"] "http://h/" "o.xlsx"
        [SheetSpec.mk "S1" 1 1 "\n \n"]) =
      Job.mk JobStatus.done 100 "" "http://h/generated/o.xlsx" "out" ∧
    (generate_excel_job "T.xlsx" true ["S1"] "http://h/" "o.xlsx"
        [SheetSpec.mk "S1" 1 1 "\n \n"]).saved = true ∧
    total_rows [SheetSpec.mk "S1" 1 1 "\n \n"] = 0 := by
  decide

/-- Claim C1, amended.  When every sheet parses to zero rows the worker does
not fail: it saves the unmodified template and issues exactly the processing
update followed by the single done update, leaving the job done with
progress 100 and the artifact url; no per-row progress is ever counted. -/
theorem c1_amended (f tp : String) (ts : List String) (bu sf : String)
    (ss : List SheetSpec) (h : total_rows ss = 0) :
    (generate_excel_job tp true ts bu sf ss).upds =
      [proc_upd, done_upd (bu ++ "generated/" ++ sf)] ∧
    (generate_excel_job tp true ts bu sf ss).saved = true ∧
    (generate_excel_job tp true ts bu sf ss).dones = [] ∧
    final_job f (generate_excel_job tp true ts bu sf ss) =
      Job.mk JobStatus.done 100 "" (bu ++ "generated/" ++ sf) f := by
  have h' : rows_total (parsed_sheets ss) = 0 := h
  refine ⟨?_, ?_, ?_, ?_⟩ <;>
    simp [generate_excel_job, h', final_job, applyUpdate, proc_upd, done_upd, initial_job]

/-- Claim C1, witness for the amended theorem at a concrete all-blank
submission. -/
theorem c1_witness :
    (generate_excel_job "T.xlsx" true ["S1"] "http://base/" "w.xlsx"
        [SheetSpec.mk "S1" 1 1 "\n \n"]).upds =
      [proc_upd, done_upd ("http://base/" ++ "generated/" ++ "w.xlsx")] ∧
    (generate_excel_job "T.xlsx" true ["S1"] "http://base/" "w.xlsx"
        [SheetSpec.mk "S1" 1 1 "\n \n"]).saved = true ∧
    (generate_excel_job "T.xlsx" true ["S1"] "http://base/" "w.xlsx"
        [SheetSpec.mk "S1" 1 1 "\n \n"]).dones = [] ∧
    final_job "w" (generate_excel_job "T.xlsx" true ["S1"] "http://base/" "w.xlsx"
        [SheetSpec.mk "S1" 1 1 "\n \n"]) =
      Job.mk JobStatus.done 100 "" ("http://base/" ++ "generated/" ++ "w.xlsx") "w" :=
  c1_amended "w" "T.xlsx" ["S1"] "http://base/" "w.xlsx"
    [SheetSpec.mk "S1" 1 1 "\n \n"] (by decide)

/-- Claim C2, counterexample.  The claim says a sheet name absent from the
template aborts the job as Failed with no artifact.  In the source the
missing sheet is created (create_sheet) and the run continues: on the
concrete run below the requested name "Missing" is appended to the workbook,
the artifact is saved and the job ends done. -/
theorem c2_counterexample :
    (final_job "f" (generate_excel_job "T.xlsx" true ["Sheet1"] "http://h/" "o.xlsx"
        [SheetSpec.mk "Missing" 2 3 "1|a"])).status = JobStatus.done ∧
    (generate_excel_job "T.xlsx" true ["Sheet1"] "http://h/" "o.xlsx"
        [SheetSpec.mk "Missing" 2 3 "1|a"]).saved = true ∧
    (generate_excel_job "T.xlsx" true ["Sheet1"] "http://h/" "o.xlsx"
        [SheetSpec.mk "Missing" 2 3 "1|a"]).sheetnames = ["Sheet1", "Missing"] := by
  decide

/-- Claim C2, amended.  A sheet name absent from the template workbook never
fails the job: with the template present the worker creates every missing
requested sheet (each trimmed requested name is in the final sheet-name
list), saves the artifact, and the job ends done. -/
theorem c2_amended (f tp : String) (ts : List String) (bu sf : String)
    (ss : List SheetSpec) (h : 0 < total_rows ss) :
    (generate_excel_job tp true ts bu sf ss).saved = true ∧
    (final_job f (generate_excel_job tp true ts bu sf ss)).status = JobStatus.done ∧
    ∀ s ∈ ss, py_strip s.name ∈ (generate_excel_job tp true ts bu sf ss).sheetnames := by
  have h0 : ¬ rows_total (parsed_sheets ss) = 0 := by
    simp only [total_rows] at h
    omega
  refine ⟨?_, ?_, ?_⟩
  · simp [generate_excel_job, h0]
  · rw [final_true]
  · intro s hs
    have hmem : (py_strip s.name, parse_rows_text s.rows_text) ∈ parsed_sheets ss :=
      List.mem_map_of_mem _ hs
    have hreq := sheets_go_names_req (rows_total (parsed_sheets ss))
      (parsed_sheets ss) 0 ts (py_strip s.name, parse_rows_text s.rows_text) hmem
    simpa [generate_excel_job, h0] using hreq

/-- Claim C2, witness for the amended theorem: the concrete missing sheet
name is indeed created. -/
theorem c2_witness :
    py_strip (SheetSpec.mk "Missing" 2 3 "1|a").name ∈
      (generate_excel_job "T.xlsx" true ["Sheet1"] "http://h/" "o.xlsx"
        [SheetSpec.mk "Missing" 2 3 "1|a"]).sheetnames :=
  (c2_amended "f" "T.xlsx" ["Sheet1"] "http://h/" "o.xlsx"
      [SheetSpec.mk "Missing" 2 3 "1|a"] (by decide)).2.2
    (SheetSpec.mk "Missing" 2 3 "1|a") (by decide)

/-- Claim C3, counterexample.  The claim says the running progress equals
floor(100*doneUnits/totalUnits) clamped to the interval up to 99.  On a
four-row submission, after the third row (doneUnits 3 of totalUnits 4) the
stored progress is int((3/4)*98)+1 = 74 (3/4 and 73.5 are exact binary64
values, so no rounding intervenes here), while the claimed formula gives
75: the observable snapshot refutes the claimed formula.  The last conjunct
exercises the float model at a rounding-sensitive input: at done=1,
total=49 CPython stores int(1.9999999999999998)+1 = 2, as progress_calc
does, where exact rational arithmetic would give 3. -/
theorem c3_counterexample :
    (job_states "f" (generate_excel_job "T.xlsx" true ["S"] "http://h/" "o.xlsx"
        [SheetSpec.mk "S" 1 1 "1\n2\n3\n4"])).get? 4 =
      some (Job.mk JobStatus.processing 74 "" "" "f") ∧
    (generate_excel_job "T.xlsx" true ["S"] "http://h/" "o.xlsx"
        [SheetSpec.mk "S" 1 1 "1\n2\n3\n4"]).dones.get? 2 = some 3 ∧
    total_rows [SheetSpec.mk "S" 1 1 "1\n2\n3\n4"] = 4 ∧
    spec_progress 3 4 = 75 ∧
    (74 : Nat) ≠ spec_progress 3 4 ∧
    progress_calc 1 49 = 2 := by
  decide

/-- Claim C3, amended.  Along every snapshot of a worker run the progress is
in the interval up to 100 and equals 100 exactly when the status is done;
while the status is processing the progress is either the entry value 1 or
the source formula int((doneUnits/totalUnits)*98)+1 capped at 99, computed
in binary64 float arithmetic (progress_calc), for some done count between 1
and the total - not the claimed floor(100*done/total) clamped to 99. -/
theorem c3_amended (f tp : String) (te : Bool) (ts : List String) (bu sf : String)
    (ss : List SheetSpec) :
    ∀ x ∈ job_states f (generate_excel_job tp te ts bu sf ss),
      x.progress_percent ≤ 100 ∧
      (x.progress_percent = 100 ↔ x.status = JobStatus.done) ∧
      (x.status = JobStatus.processing →
        x.progress_percent = 1 ∨
        ∃ d, 1 ≤ d ∧ d ≤ total_rows ss ∧
          x.progress_percent = progress_calc d (total_rows ss)) := by
  intro x hx
  rcases run_states_char f tp te ts bu sf ss x hx with
    h | h | ⟨hte, h⟩ | ⟨d, hd1, hd2, h⟩ | h
  · subst h
    exact ⟨by simp [initial_job], by simp [initial_job], by simp [initial_job]⟩
  · subst h
    exact ⟨by simp, by simp, fun _ => Or.inl rfl⟩
  · subst h
    exact ⟨by simp, by simp, by simp⟩
  · subst h
    have hle : progress_calc d (total_rows ss) ≤ 99 := progress_calc_le d (total_rows ss)
    refine ⟨?_, ?_, fun _ => Or.inr ⟨d, hd1, hd2, rfl⟩⟩
    · show progress_calc d (total_rows ss) ≤ 100
      omega
    · constructor
      · intro hc
        have hc2 : progress_calc d (total_rows ss) = 100 := hc
        omega
      · intro hc
        exact absurd hc (by simp)
  · subst h
    exact ⟨by simp, by simp, by simp⟩

/-- Claim C3, witness for the amended theorem at the mid-run snapshot of the
four-row submission. -/
theorem c3_witness :
    (Job.mk JobStatus.processing 74 "" "" "f").progress_percent ≤ 100 ∧
    ((Job.mk JobStatus.processing 74 "" "" "f").progress_percent = 100 ↔
      (Job.mk JobStatus.processing 74 "" "" "f").status = JobStatus.done) ∧
    ((Job.mk JobStatus.processing 74 "" "" "f").status = JobStatus.processing →
      (Job.mk JobStatus.processing 74 "" "" "f").progress_percent = 1 ∨
      ∃ d, 1 ≤ d ∧ d ≤ total_rows [SheetSpec.mk "S" 1 1 "1\n2\n3\n4"] ∧
        (Job.mk JobStatus.processing 74 "" "" "f").progress_percent =
          progress_calc d (total_rows [SheetSpec.mk "S" 1 1 "1\n2\n3\n4"])) :=
  c3_amended "f" "T.xlsx" true ["S"] "http://h/" "o.xlsx"
    [SheetSpec.mk "S" 1 1 "1\n2\n3\n4"] (Job.mk JobStatus.processing 74 "" "" "f")
    (by decide)

/-- Helper for claim C4: every piece produced by the character splitter draws
its characters from the input and never contains the separator. -/
theorem split_chars_mem (sep : Char) : ∀ (l : List Char) (p : List Char),
    p ∈ split_chars sep l → ∀ c ∈ p, c ∈ l ∧ c ≠ sep := by
  intro l
  induction l with
  | nil =>
    intro p hp c hc
    simp only [split_chars, List.mem_singleton] at hp
    subst hp
    simp at hc
  | cons a l ih =>
    intro p hp c hc
    simp only [split_chars] at hp
    by_cases ha : a = sep
    · rw [if_pos ha] at hp
      rcases List.mem_cons.mp hp with rfl | hp
      · simp at hc
      · have hr := ih p hp c hc
        exact ⟨List.mem_cons_of_mem a hr.1, hr.2⟩
    · rw [if_neg ha] at hp
      cases hsc : split_chars sep l with
      | nil =>
        rw [hsc] at hp
        simp only [List.mem_singleton] at hp
        subst hp
        simp only [List.mem_singleton] at hc
        subst hc
        exact ⟨List.mem_cons_self _ _, ha⟩
      | cons q qs =>
        rw [hsc] at hp
        rcases List.mem_cons.mp hp with rfl | hp
        · rcases List.mem_cons.mp hc with rfl | hc2
          · exact ⟨List.mem_cons_self c l, ha⟩
          · have hr := ih q (by rw [hsc]; exact List.mem_cons_self q qs) c hc2
            exact ⟨List.mem_cons_of_mem a hr.1, hr.2⟩
        · have hr := ih p (by rw [hsc]; exact List.mem_cons_of_mem q hp) c hc
          exact ⟨List.mem_cons_of_mem a hr.1, hr.2⟩

/-- Helper for claim C4: no parsed cell ever contains the column delimiter or
a newline, because both act as separators during splitting (and for no other
reason: nothing is replaced). -/
theorem parse_cells_clean (s : String) : ∀ row ∈ parse_rows_text s, ∀ cell ∈ row,
    '|' ∉ cell.data ∧ '\n' ∉ cell.data := by
  intro row hrow cell hcell
  unfold parse_rows_text at hrow
  by_cases hs : s = ""
  · rw [if_pos hs] at hrow
    simp at hrow
  · rw [if_neg hs] at hrow
    obtain ⟨ln, hln, rfl⟩ := List.mem_map.mp hrow
    have hlnf : ln ∈ split_on '\n' s := (List.mem_filter.mp hln).1
    simp only [split_on] at hcell
    obtain ⟨cdata, hcd, rfl⟩ := List.mem_map.mp hcell
    constructor
    · intro hc
      exact (split_chars_mem '|' ln.data cdata hcd '|' hc).2 rfl
    · intro hc
      have h1 : '\n' ∈ ln.data := (split_chars_mem '|' ln.data cdata hcd '\n' hc).1
      simp only [split_on] at hlnf
      obtain ⟨ldata, hld, hlneq⟩ := List.mem_map.mp hlnf
      rw [← hlneq] at h1
      exact (split_chars_mem '\n' s.data ldata hld '\n' h1).2 rfl

/-- Claim C4, counterexample.  The claim says cell values are sanitized (the
delimiter replaced by a space) before splitting, so a single logical value
containing the delimiter never fabricates an extra column.  The parser does
no such replacement: the one-line input below, one logical value containing
the delimiter, parses to a row of two cells. -/
theorem c4_counterexample :
    parse_rows_text "X|Y" = [["X", "Y"]] ∧
    (parse_rows_text "X|Y").length = 1 ∧
    ((parse_rows_text "X|Y").get? 0).map List.length = some 2 := by
  decide

/-- Claim C4, amended.  parse_rows_text performs no sanitization: it drops
blank lines and splits every remaining line at each pipe, so a pipe-free
row round-trips ("A|B|C" parses to exactly three cells), every pipe inside
a value starts a new column, and cells never contain a pipe or a newline
only because both act as separators. -/
theorem c4_amended :
    parse_rows_text "A|B|C" = [["A", "B", "C"]] ∧
    parse_rows_text "X|Y" = [["X", "Y"]] ∧
    ∀ (s : String), ∀ row ∈ parse_rows_text s, ∀ cell ∈ row,
      '|' ∉ cell.data ∧ '\n' ∉ cell.data :=
  ⟨by decide, by decide, parse_cells_clean⟩

/-- Claim C4, witness for the amended theorem at a concrete parsed cell. -/
theorem c4_witness : '|' ∉ ("A" : String).data ∧ '\n' ∉ ("A" : String).data :=
  c4_amended.2.2 "A|B" ["A", "B"] (by decide) "A" (by decide)

/-- Claim C5, counterexample.  The claim says start fails synchronously when
sheets is missing or an empty list, with no job created.  In the source a
missing sheets key defaults to the empty list, which passes the isinstance
check: both cases create a queued job (and issue an id). -/
theorem c5_counterexample :
    excel_start "export.xlsx" SheetsField.missing =
      StartResult.started (initial_job "export.xlsx") [] ∧
    excel_start "export.xlsx" (SheetsField.list []) =
      StartResult.started (initial_job "export.xlsx") [] :=
  ⟨rfl, rfl⟩

/-- Claim C5, amended.  start rejects synchronously only a sheets value that
is present and not a list; a missing sheets key defaults to the empty list
and every list, the empty one included, creates a queued job with progress 0
and spawns the worker on exactly those sheets. -/
theorem c5_amended (f : String) :
    excel_start f SheetsField.notList =
      StartResult.clientError "sheets must be a list" 400 ∧
    excel_start f SheetsField.missing = StartResult.started (initial_job f) [] ∧
    ∀ ss, excel_start f (SheetsField.list ss) = StartResult.started (initial_job f) ss :=
  ⟨rfl, rfl, fun _ => rfl⟩

/-- Claim C6, counterexample.  The claim says an unknown job id gets a
not-found indication distinct from the Failed status, and never a Failed
status with a misleading error.  The source's 404 body literally carries
status "failed" (the same string status_string maps the Failed state to)
together with error "job not found". -/
theorem c6_counterexample :
    excel_status [] "ghost" = StatusResp.mk 404 "" "failed" 0 "" "job not found" "" ∧
    (excel_status [] "ghost").status = status_string JobStatus.failed ∧
    (excel_status [] "ghost").error = "job not found" := by
  decide

/-- Claim C6, amended.  For every id absent from the registry the status
endpoint answers with HTTP code 404 (the only not-found indication), but the
JSON body reports status "failed" with error "job not found" and progress 0:
at the body level the answer is not distinct from a Failed job. -/
theorem c6_amended (reg : Registry) (job_id : String)
    (h : get_job reg job_id = none) :
    excel_status reg job_id = StatusResp.mk 404 "" "failed" 0 "" "job not found" "" := by
  simp [excel_status, h]

/-- Claim C6, witness for the amended theorem on the empty registry. -/
theorem c6_witness :
    excel_status [] "nobody" = StatusResp.mk 404 "" "failed" 0 "" "job not found" "" :=
  c6_amended [] "nobody" rfl

/-- Claim C7.  For a template-present run with positive total units, the
done-unit sequence the worker counts through is non-decreasing and bounded
by the total, its final value is the total, and the terminal status is done
(so the final-value-reaches-total and terminal-done conditions are
equivalent, as the claim states).  The failed terminal is reachable only by
the missing-template run, which counts no units at all. -/
theorem c7_main (f tp : String) (ts : List String) (bu sf : String)
    (ss : List SheetSpec) (h : 0 < total_rows ss) :
    List.Pairwise (fun a b => a ≤ b) (generate_excel_job tp true ts bu sf ss).dones ∧
    (∀ v ∈ (generate_excel_job tp true ts bu sf ss).dones, v ≤ total_rows ss) ∧
    (generate_excel_job tp true ts bu sf ss).dones.getLast? = some (total_rows ss) ∧
    (final_job f (generate_excel_job tp true ts bu sf ss)).status = JobStatus.done ∧
    ((generate_excel_job tp true ts bu sf ss).dones.getLast? = some (total_rows ss) ↔
      (final_job f (generate_excel_job tp true ts bu sf ss)).status = JobStatus.done) := by
  have h0 : ¬ rows_total (parsed_sheets ss) = 0 := by
    simp only [total_rows] at h
    omega
  have hdones : (generate_excel_job tp true ts bu sf ss).dones =
      count_up 0 (rows_total (parsed_sheets ss)) := by
    simp only [generate_excel_job, if_true, h0, if_false]
    exact sheets_go_fst (rows_total (parsed_sheets ss)) (parsed_sheets ss) 0 ts
  have hpair : List.Pairwise (fun a b => a ≤ b)
      (generate_excel_job tp true ts bu sf ss).dones := by
    rw [hdones]
    exact count_up_pairwise _ _
  have hbound : ∀ v ∈ (generate_excel_job tp true ts bu sf ss).dones,
      v ≤ total_rows ss := by
    rw [hdones]
    intro v hv
    have hb := count_up_mem (rows_total (parsed_sheets ss)) 0 v hv
    simp only [total_rows]
    omega
  have hlast : (generate_excel_job tp true ts bu sf ss).dones.getLast? =
      some (total_rows ss) := by
    rw [hdones]
    have hpos : 0 < rows_total (parsed_sheets ss) := by omega
    have := count_up_last (rows_total (parsed_sheets ss)) 0 hpos
    simpa [total_rows] using this
  have hfin : (final_job f (generate_excel_job tp true ts bu sf ss)).status =
      JobStatus.done := by
    rw [final_true]
  exact ⟨hpair, hbound, hlast, hfin, fun _ => hfin, fun _ => hlast⟩

/-- Claim C7, witness at a concrete two-row submission. -/
theorem c7_witness :
    (generate_excel_job "T.xlsx" true ["S"] "http://h/" "o.xlsx"
        [SheetSpec.mk "S" 1 1 "1|a\n2|b"]).dones.getLast? =
      some (total_rows [SheetSpec.mk "S" 1 1 "1|a\n2|b"]) :=
  (c7_main "f" "T.xlsx" ["S"] "http://h/" "o.xlsx"
      [SheetSpec.mk "S" 1 1 "1|a\n2|b"] (by decide)).2.2.1

/-- Claim C8.  No reader ever observes a non-empty artifact reference for a
job that is not done: along every snapshot of any worker run, a non-empty
file_url forces status done with progress 100; among the updates the worker
issues, only the single terminal done update (which also sets status done
and progress 100) carries a file_url at all; and the status endpoint masks
file_url to the empty string whenever the reported status is not "done". -/
theorem c8_main (f tp : String) (te : Bool) (ts : List String) (bu sf : String)
    (ss : List SheetSpec) :
    (∀ x ∈ job_states f (generate_excel_job tp te ts bu sf ss),
      x.file_url ≠ "" → x.status = JobStatus.done ∧ x.progress_percent = 100) ∧
    (∀ u ∈ (generate_excel_job tp te ts bu sf ss).upds,
      u.file_url ≠ none →
        u = done_upd (bu ++ "generated/" ++ sf) ∧
        u.status = some JobStatus.done ∧ u.progress_percent = some 100) ∧
    (∀ (reg : Registry) (job_id : String),
      (excel_status reg job_id).status ≠ "done" →
        (excel_status reg job_id).file_url = "") := by
  refine ⟨?_, ?_, ?_⟩
  · intro x hx hfu
    rcases run_states_char f tp te ts bu sf ss x hx with
      h | h | ⟨hte, h⟩ | ⟨d, hd1, hd2, h⟩ | h
    · subst h
      simp [initial_job] at hfu
    · subst h
      simp at hfu
    · subst h
      simp at hfu
    · subst h
      simp at hfu
    · subst h
      exact ⟨rfl, rfl⟩
  · intro u hu hfu
    rcases upds_char tp te ts bu sf ss u hu with
      h | ⟨d, hd1, hd2, h⟩ | h | ⟨hte, h⟩
    · subst h
      simp [proc_upd] at hfu
    · subst h
      simp [prog_upd] at hfu
    · subst h
      exact ⟨rfl, rfl, rfl⟩
    · subst h
      simp [fail_upd] at hfu
  · intro reg job_id hst
    cases hj : get_job reg job_id with
    | none => simp [excel_status, hj]
    | some j =>
      by_cases hd : j.status = JobStatus.done
      · exact absurd (by simp [excel_status, hj, hd, status_string]) hst
      · simp [excel_status, hj, hd]

/-- Claim C8, witness: the terminal snapshot of a concrete run, which does
carry a file_url, indeed has status done and progress 100. -/
theorem c8_witness :
    (Job.mk JobStatus.done 100 "" "http://h/generated/o.xlsx" "f").status =
      JobStatus.done ∧
    (Job.mk JobStatus.done 100 "" "http://h/generated/o.xlsx" "f").progress_percent =
      100 :=
  (c8_main "f" "T.xlsx" true ["S"] "http://h/" "o.xlsx"
      [SheetSpec.mk "S" 1 1 "1|a"]).1
    (Job.mk JobStatus.done 100 "" "http://h/generated/o.xlsx" "f")
    (by decide) (by decide)

/-- Claim C9.  update_job on an id absent from the registry is a no-op: the
registry is returned unchanged, and as a total function the operation cannot
raise (the Python body only reads, finds nothing and returns). -/
theorem c9_main (reg : Registry) (job_id : String) (u : JobUpdate)
    (h : get_job reg job_id = none) :
    update_job reg job_id u = reg := by
  have h' : reg.lookup job_id = none := h
  simp [update_job, h']

/-- Claim C9, witness on the empty registry. -/
theorem c9_witness : update_job [] "job1" proc_upd = [] :=
  c9_main [] "job1" proc_upd rfl

/-- Claim C10.  Whenever a worker-issued update sets status failed, that very
update also resets progress_percent to 0 and sets error to the message of
the caught fault (the only fault the worker can hit in this model is the
missing template): the source's reset-to-zero policy, not freeze-at-last. -/
theorem c10_main (tp : String) (te : Bool) (ts : List String) (bu sf : String)
    (ss : List SheetSpec) :
    ∀ u ∈ (generate_excel_job tp te ts bu sf ss).upds,
      u.status = some JobStatus.failed →
        u.progress_percent = some 0 ∧
        u.error = some ("Template not found: " ++ tp) ∧
        u = fail_upd ("Template not found: " ++ tp) := by
  intro u hu hst
  rcases upds_char tp te ts bu sf ss u hu with
    h | ⟨d, hd1, hd2, h⟩ | h | ⟨hte, h⟩
  · subst h
    exact absurd hst (by simp [proc_upd])
  · subst h
    exact absurd hst (by simp [prog_upd])
  · subst h
    exact absurd hst (by simp [done_upd])
  · subst h
    exact ⟨rfl, rfl, rfl⟩

/-- Claim C10, witness at the concrete missing-template run. -/
theorem c10_witness :
    (fail_upd ("Template not found: " ++ "T.xlsx")).progress_percent = some 0 ∧
    (fail_upd ("Template not found: " ++ "T.xlsx")).error =
      some ("Template not found: " ++ "T.xlsx") ∧
    fail_upd ("Template not found: " ++ "T.xlsx") =
      fail_upd ("Template not found: " ++ "T.xlsx") :=
  c10_main "T.xlsx" false [] "http://h/" "o.xlsx" []
    (fail_upd ("Template not found: " ++ "T.xlsx")) (by decide) (by decide)

end IbgcApp
